import Mathlib

/-!
Verification of the vs-scale repository (descale candidate selection,
detail/error mask synthesis, gamma curve validation) against its
natural-language specification.

Shallow embedding conventions:
* Frames are identified by opaque handles (`Frame := ℕ`); pixel planes of
  the float pipeline are functions `ℤ × ℤ → ℚ` (Python floats are rationals;
  the comparisons, clamps and morphology the claims touch are exact).
* Clips (frame sequences) are modelled as bi-infinite sequences `ℤ → _`,
  abstracting the boundary clamping of frame shifts.
* Python floats appearing only as score values go to `ℝ` (`log2`, `** 0.2`).
-/

namespace VsScale

/-- A resampling kernel, identified by its class name
(`kernel.__class__.__name__` is all `descale.py` uses of it). -/
structure Kernel where
  name : String
deriving DecidableEq, Repr

/-- An opaque frame/clip handle. -/
abbrev Frame := ℕ

/-- Modelled from the spec: the Candidate record (`DescaleAttempt` of
`vsscale/types.py`, not included in the sources): one hypothesis is a
kernel plus a target resolution, owning its `descaled`, `rescaled` and
`diff` derived frames. -/
structure DescaleAttempt where
  kernel : Kernel
  width : ℕ
  height : ℕ
  descaled : Frame
  rescaled : Frame
  diff : Frame
deriving DecidableEq, Repr

/-- Python list repetition `l * n`. -/
def listMul {α : Type} (l : List α) (n : ℕ) : List α :=
  (List.replicate n l).flatten

/-- `descale.py`: `kernel_combinations = list(zip(norm_kernels,
list(zip(widths, heights)) * n_kernels))`.  Python `zip` truncates at the
shorter argument, exactly as `List.zip` does. -/
def kernelCombinations (kernels : List Kernel) (widths heights : List ℕ) :
    List (Kernel × (ℕ × ℕ)) :=
  List.zip kernels (listMul (List.zip widths heights) kernels.length)

/-- `descale.py`: `multi_descale = len(widths) > 1`. -/
def multiDescale (widths : List ℕ) : Bool :=
  decide (1 < widths.length)

/-- The two dispatch paths of `descale`: `descale_attempts[0].descaled`
passthrough versus the per-frame `FrameEval` selection. -/
inductive DescalePath where
  | passthrough
  | perFrameSelection
deriving DecidableEq, Repr

/-- `descale.py`: `if multi_descale: ... FrameEval(select_partial, ...)
else: descaled = descale_attempts[0].descaled`. -/
def descalePath (widths : List ℕ) : DescalePath :=
  if multiDescale widths then .perFrameSelection else .passthrough

/-- One insertion into a Python `dict` comprehension: an existing key keeps
its position but gets the new value, a fresh key is appended. -/
def dictInsert (d : List (ℕ × DescaleAttempt)) (k : ℕ) (v : DescaleAttempt) :
    List (ℕ × DescaleAttempt) :=
  if d.any (fun p => p.1 = k) then
    d.map (fun p => if p.1 = k then (k, v) else p)
  else
    d ++ [(k, v)]

/-- `get_select_descale`: `clips_by_height = {attempt.resolution.height:
attempt for attempt in descale_attempts}` (insertion-ordered dict; a later
attempt with the same height overwrites the earlier one). -/
def clipsByHeight (attempts : List DescaleAttempt) : List (ℕ × DescaleAttempt) :=
  attempts.foldl (fun d a => dictInsert d a.height a) []

/-- Key list of the modelled dict. -/
def dictKeys (d : List (ℕ × DescaleAttempt)) : List ℕ :=
  d.map Prod.fst

/-- Python dict lookup `clips_by_height[h]` (`none` models `KeyError`). -/
def lookupHeight (d : List (ℕ × DescaleAttempt)) (h : ℕ) : Option DescaleAttempt :=
  (d.find? (fun p => p.1 = h)).map Prod.snd

/-- Python `max(range(n), key=key)`: the first index attaining the maximal
key wins (the running best is replaced only on a strictly greater key). -/
def pyMaxRangeKey {β : Type} [LinearOrder β] (n : ℕ) (key : ℕ → β) : ℕ :=
  (List.range n).foldl (fun best i => if key best < key i then i else best) 0

/-- `_get_descale_score`: `log2(clip.height - descale_height) *
round(1 / max(stat, 1e-12)) ** 0.2`. -/
noncomputable def descaleScore (clipHeight dh : ℕ) (stat : ℚ) : ℝ :=
  Real.logb 2 ((clipHeight : ℝ) - (dh : ℝ)) *
    ((round ((1 : ℝ) / max (stat : ℝ) 1e-12) : ℤ) : ℝ) ^ (0.2 : ℝ)

/-- `_parse_attemps`: `best_res = max(range(n_clips),
key=partial(_get_descale_score, mapped_props))` where `n_clips` is the
number of (height-deduplicated) diff clips and `mapped_props` pairs each
frame's `descale_height` with its `PlaneStatsAverage`. -/
noncomputable def bestIdx (clipHeight : ℕ) (byHeight : List (ℕ × DescaleAttempt))
    (props : List (ℕ × ℚ)) : ℕ :=
  pyMaxRangeKey byHeight.length
    (fun i => descaleScore clipHeight (props.getD i (0, 0)).1 (props.getD i (0, 0)).2)

/-- `_select_descale` (both closures of `get_select_descale`): look the
winner up by its `descale_height` (`none` models `KeyError`); with
`threshold == 0` always emit the winner's `descaled`, otherwise emit the
source `clip` when the winner's statistic exceeds the threshold. -/
noncomputable def selectDescale (clip : Frame) (clipHeight : ℕ)
    (byHeight : List (ℕ × DescaleAttempt)) (threshold : ℚ)
    (props : List (ℕ × ℚ)) : Option Frame :=
  let best := bestIdx clipHeight byHeight props
  match lookupHeight byHeight (props.getD best (0, 0)).1 with
  | none => none
  | some att =>
    if threshold = 0 then some att.descaled
    else if threshold < (props.getD best (0, 0)).2 then some clip
    else some att.descaled

/-! ### Mask pipelines (`mask.py`)

Planes are 2-D rational buffers in the 32-bit-float working format the
descale pipeline feeds them (peak value `1`, neutral value `1/2`); clips
are bi-infinite sequences of planes. -/

/-- A single-frame pixel plane. -/
abbrev Plane := ℤ × ℤ → ℚ

/-- A clip: one plane per (bi-infinite) frame index. -/
abbrev MaskSeq := ℤ → Plane

/-- Peak sample value of the float working format (`get_peak_value`). -/
def peakValue : ℚ := 1

/-- Neutral sample value of the float working format (`get_neutral_value`). -/
def neutralValue : ℚ := 1 / 2

/-- The 3×3 neighbourhood offsets (centre included). -/
def nbhd9 : List (ℤ × ℤ) :=
  [(-1, -1), (-1, 0), (-1, 1), (0, -1), (0, 0), (0, 1), (1, -1), (1, 0), (1, 1)]

/-- The 8 neighbour offsets (centre excluded). -/
def nbhd8 : List (ℤ × ℤ) :=
  [(-1, -1), (-1, 0), (-1, 1), (0, -1), (0, 1), (1, -1), (1, 0), (1, 1)]

/-- Fold of `max` over a list, seeded with its head (adequate for the
nonempty lists of nonnegative samples it is applied to). -/
def listFoldMax (l : List ℚ) : ℚ :=
  l.foldl max (l.headD 0)

/-- `norm_expr([a, b], 'x y - abs')`: per-pixel absolute difference. -/
def absDiff (a b : Plane) : Plane :=
  fun p => |a p - b p|

/-- `std.Binarize(thr)`: samples reaching the threshold go to peak, the
rest to zero. -/
def binarize (thr : ℚ) (m : Plane) : Plane :=
  fun p => if thr ≤ m p then peakValue else 0

/-- `std.Maximum`: 3×3 morphological dilation. -/
def maximumOp (m : Plane) : Plane :=
  fun p => listFoldMax (nbhd9.map (fun o => m (p.1 + o.1, p.2 + o.2)))

/-- `std.Minimum`: 3×3 morphological erosion. -/
def minimumOp (m : Plane) : Plane :=
  fun p => (nbhd9.map (fun o => m (p.1 + o.1, p.2 + o.2))).foldl min (m p)

/-- `std.Inflate`: each sample is replaced by the average of its eight
neighbours when that average is larger. -/
def inflateOp (m : Plane) : Plane :=
  fun p => max (m p) (((nbhd8.map (fun o => m (p.1 + o.1, p.2 + o.2))).sum) / 8)

/-- `std.Limiter()`: clamp into the legal `[0, peak]` range. -/
def limiter (m : Plane) : Plane :=
  fun p => max 0 (min peakValue (m p))

/-- The external `vstools.iterate(base, function, count)` helper used by
`descale_detail_mask`: it applies `function` `count` times and returns
`base` unchanged for a count of zero or less (`for _ in range(count)`
semantics). -/
def vstoolsIterate {α : Type} (base : α) (f : α → α) (count : ℤ) : α :=
  f^[count.toNat] base

/-- `descale_detail_mask(clip, rescaled, thr, inflate, xxpand)`:
difference → binarize at `thr * peak` → signed pre-inflate
`Maximum`/`Minimum` pass → `Inflate` pass → signed post-inflate pass →
limiter.  Python `if xxpand[0]:` is nonzero truthiness. -/
def descale_detail_mask (clip rescaled : Plane) (thr : ℚ) (inflate : ℤ)
    (xxpand : ℤ × ℤ) : Plane :=
  let mask0 := absDiff clip rescaled
  let mask1 := binarize (thr * peakValue) mask0
  let mask2 := if xxpand.1 ≠ 0 then
      vstoolsIterate mask1 (if 0 < xxpand.1 then maximumOp else minimumOp) xxpand.1
    else mask1
  let mask3 := if inflate ≠ 0 then vstoolsIterate mask2 inflateOp inflate else mask2
  let mask4 := if xxpand.2 ≠ 0 then
      vstoolsIterate mask3 (if 0 < xxpand.2 then maximumOp else minimumOp) xxpand.2
    else mask3
  limiter mask4

/-! ### Error mask (`descale_error_mask`) -/

/-- Per-frame lift of a plane transform to clips. -/
def seqMap (f : Plane → Plane) (m : MaskSeq) : MaskSeq :=
  fun i => f (m i)

/-- Per-frame absolute difference of two clips. -/
def seqAbsDiff (a b : MaskSeq) : MaskSeq :=
  fun i => absDiff (a i) (b i)

/-- Per-frame binarize of a clip. -/
def binarizeSeq (thr : ℚ) (m : MaskSeq) : MaskSeq :=
  seqMap (binarize thr) m

/-- `Morpho.expand(clip, n)` with the default square structuring element:
`n` iterations of 3×3 dilation, applied frame-wise. -/
def expandRect (n : ℕ) (m : MaskSeq) : MaskSeq :=
  fun i => maximumOp^[n] (m i)

/-- `expands` argument of `descale_error_mask`: `int | tuple[int, int, int]`. -/
inductive ExpandsArg where
  | int (n : ℤ)
  | triple (a b c : ℤ)
deriving DecidableEq, Repr

/-- `if isinstance(expands, int): exp1 = exp2 = exp3 = expands else:
exp1, exp2, exp3 = expands`. -/
def ExpandsArg.norm : ExpandsArg → ℤ × ℤ × ℤ
  | .int n => (n, n, n)
  | .triple a b c => (a, b, c)

/-- `blur` argument: `int` selects `box_blur`, `float` selects `gauss_blur`. -/
inductive BlurArg where
  | int (n : ℤ)
  | float (sigma : ℚ)
deriving DecidableEq, Repr

/-- External capabilities consumed by `descale_error_mask` (spec §1 treats
morphology modes, hysteresis, blurs, `Catrom` rescaling and the
`scale_value` conversion as external collaborators with interfaces only). -/
structure ExternOps where
  expandEllipse : ℕ → MaskSeq → MaskSeq
  hysteresis : MaskSeq → MaskSeq → MaskSeq
  boxBlur : ℤ → MaskSeq → MaskSeq
  gaussBlur : ℚ → MaskSeq → MaskSeq
  catromScale : MaskSeq → MaskSeq
  tvLow : ℚ
  tvHigh : ℚ
  scaleThr : ℚ → ℚ

/-- `if exp3: error = Morpho.expand(error, exp2, mode=XxpandMode.ELLIPSE)`
— the second elliptical expansion, gated on `exp3` (Python nonzero
truthiness) but applied with the `exp2` iteration count. -/
def secondEllipseStep (expandEllipse : ℕ → MaskSeq → MaskSeq) (exp2 exp3 : ℤ)
    (m : MaskSeq) : MaskSeq :=
  if exp3 ≠ 0 then expandEllipse exp2.toNat m else m

/-- `shift_clip_multi(clip, (-tr, tr))` offsets: `range(-tr, tr + 1)`. -/
def shiftOffsets (tr : ℕ) : List ℤ :=
  (List.range (2 * tr + 1)).map (fun (k : ℕ) => (k : ℤ) - (tr : ℤ))

/-- `average_merge(*shift_clip_multi(error, (-tr, tr)))`: the per-pixel
mean over the `2 tr + 1` shifted copies of the clip. -/
def tsAvg (tr : ℕ) (m : MaskSeq) : MaskSeq :=
  fun i p =>
    (((shiftOffsets tr).map (fun o => m (i + o) p)).sum) / ((shiftOffsets tr).length : ℚ)

/-- `.std.Binarize(neutral)` of the temporal average. -/
def tsAvgBin (tr : ℕ) (m : MaskSeq) : MaskSeq :=
  fun i p => if neutralValue ≤ tsAvg tr m i p then peakValue else 0

/-- `combine([error, avg], ExprOp.MIN)`. -/
def tsMin (tr : ℕ) (m : MaskSeq) : MaskSeq :=
  fun i p => min (m i p) (tsAvgBin tr m i p)

/-- `combine(shift_clip_multi(_error, (-tr, tr)), ExprOp.MAX)`. -/
def tsShiftMax (tr : ℕ) (m : MaskSeq) : MaskSeq :=
  fun i p => listFoldMax ((shiftOffsets tr).map (fun o => tsMin tr m (i + o) p))

/-- The whole `if tr > 1` temporal-stabilization block body. -/
def temporalStabilize (tr : ℕ) (m : MaskSeq) : MaskSeq :=
  fun i p => min (m i p) (tsShiftMax tr m i p)

/-- `descale_error_mask`'s temporal step: the stabilization body runs only
under `tr > 1`. -/
def errorMaskTemporal (tr : ℤ) (m : MaskSeq) : MaskSeq :=
  if 1 < tr then temporalStabilize tr.toNat m else m

/-- The `bwbias > 1 and chroma` weighting branch: chroma activity
(`max |chroma - neutral|`, rescaled to luma size), a luma-range bias plane
(`bwbias` where luma is outside TV range and chroma activity is zero,
else `1`), expanded twice, multiplied into the error.  The two-input
chroma expression is generalized to a fold over the chroma plane list. -/
def biasWeight (ops : ExternOps) (y : MaskSeq) (chroma : List MaskSeq)
    (bwbias : ℤ) (error : MaskSeq) : MaskSeq :=
  let chromaAbs : MaskSeq := fun i p =>
    listFoldMax (chroma.map (fun c => |c i p - neutralValue|))
  let chromaAbsScaled := ops.catromScale chromaAbs
  let bias : MaskSeq := fun i p =>
    if (ops.tvHigh ≤ y i p ∨ y i p ≤ ops.tvLow) ∧ chromaAbsScaled i p = 0 then
      (bwbias : ℚ)
    else 1
  let bias2 := expandRect 2 bias
  fun i p => error i p * bias2 i p

/-- `descale_error_mask(clip, rescaled, thr, expands, blur, bwbias, tr)`
specialized to the 32-bit-float grayscale working format; `.error` marks
the uncaught Python exceptions (`assert exp1`, `scaled_thrs[0]` on an
empty threshold list).  The threshold values themselves are never
validated. -/
def descale_error_mask (ops : ExternOps) (y : MaskSeq) (chroma : List MaskSeq)
    (rescaled : MaskSeq) (thr : List ℚ) (expands : ExpandsArg) (blur : BlurArg)
    (bwbias : ℤ) (tr : ℤ) : Except String MaskSeq :=
  let error0 := seqAbsDiff y rescaled
  let error1 := if 1 < bwbias ∧ chroma.length ≠ 0 then
      biasWeight ops y chroma bwbias error0
    else error0
  if expands.norm.1 = 0 then .error "AssertionError: assert exp1" else
  let error2 := expandRect expands.norm.1.toNat error1
  let error3 := if expands.norm.2.1 ≠ 0 then
      ops.expandEllipse expands.norm.2.1.toNat error2
    else error2
  match thr.map (fun v => ops.scaleThr (v / 10)) with
  | [] => .error "IndexError: scaled_thrs[0]"
  | t0 :: rest =>
    let error4 := binarizeSeq t0 error3
    let error5 := rest.foldl (fun e t => ops.hysteresis (binarizeSeq t e) e) error4
    let error6 := secondEllipseStep ops.expandEllipse expands.norm.2.1 expands.norm.2.2 error5
    let error7 := errorMaskTemporal tr error6
    let error8 := match blur with
      | .int n => ops.boxBlur n error7
      | .float s => ops.gaussBlur s error7
    .ok (seqMap limiter error8)

/-! ### Gamma curve validation (`gamma.py`) -/

/-- VapourSynth sample types. -/
inductive SampleType where
  | integer
  | float
deriving DecidableEq, Repr

/-- The part of a VapourSynth video format the validation reads. -/
structure VideoFormat where
  bitsPerSample : ℕ
  sampleType : SampleType
deriving DecidableEq, Repr

/-- `gamma2linear`: `if get_depth(clip) != 32 and clip.format.sample_type
!= vs.FLOAT: raise ValueError(...)` — note the conjunction. -/
def gamma2linear_check (f : VideoFormat) : Except String Unit :=
  if f.bitsPerSample ≠ 32 ∧ f.sampleType ≠ .float then
    .error "gamma2linear: Your clip must be 32bit float!"
  else .ok ()

/-- `linear2gamma`: the same conjunctive format guard. -/
def linear2gamma_check (f : VideoFormat) : Except String Unit :=
  if f.bitsPerSample ≠ 32 ∧ f.sampleType ≠ .float then
    .error "linear2gamma: Your clip must be 32bit float!"
  else .ok ()

/-! ### Concrete fixtures used in counterexamples and witnesses -/

/-- The default `Catrom` kernel. -/
def kCatrom : Kernel := ⟨"Catrom"⟩

/-- A second kernel. -/
def kBilinear : Kernel := ⟨"Bilinear"⟩

/-- A 720p candidate. -/
def att720a : DescaleAttempt := ⟨kCatrom, 1280, 720, 10, 11, 12⟩

/-- A second candidate with the same 720 height. -/
def att720b : DescaleAttempt := ⟨kBilinear, 1280, 720, 20, 21, 22⟩

/-- An 810p candidate. -/
def att810 : DescaleAttempt := ⟨kBilinear, 1440, 810, 30, 31, 32⟩

/-- A plane holding a single lit pixel at the origin. -/
def demoClip : Plane := fun p => if p = (0, 0) then 1 else 0

/-- The all-zero plane. -/
def demoZero : Plane := fun _ => 0

/-- A single counting step (adds one to every sample). -/
def addOneOp : MaskSeq → MaskSeq := fun m => fun i p => m i p + 1

/-- A concrete expansion capability that visibly applies its iteration
count: `n` iterations of `addOneOp` add exactly `n`. -/
def iterCountOps : ℕ → MaskSeq → MaskSeq := fun n m => addOneOp^[n] m

/-- The static clip holding `demoClip` on every frame. -/
def demoSeq : MaskSeq := fun _ => demoClip

/-- Trivial instantiations of the external capabilities. -/
def trivOps : ExternOps :=
  ⟨fun _ m => m, fun a _ => a, fun _ m => m, fun _ m => m, fun m => m,
    16 / 255, 235 / 255, fun q => q⟩

/-- The all-zero clip. -/
def zeroSeq : MaskSeq := fun _ _ => 0

/-! ### Helper lemmas -/

theorem pyMaxRangeKey_zero {β : Type} [LinearOrder β] (key : ℕ → β) :
    pyMaxRangeKey 0 key = 0 := rfl

theorem pyMaxRangeKey_succ {β : Type} [LinearOrder β] (n : ℕ) (key : ℕ → β) :
    pyMaxRangeKey (n + 1) key =
      if key (pyMaxRangeKey n key) < key n then n else pyMaxRangeKey n key := by
  unfold pyMaxRangeKey
  rw [List.range_succ, List.foldl_append]
  rfl

/-- Python `max(range(n), key=...)`: the result is in range, attains the
maximal key, and every strictly earlier index has a strictly smaller key
(the first maximal index wins ties). -/
theorem pyMaxRangeKey_spec {β : Type} [LinearOrder β] (n : ℕ) (key : ℕ → β) :
    (0 < n → pyMaxRangeKey n key < n) ∧
    (∀ j, j < n → key j ≤ key (pyMaxRangeKey n key)) ∧
    (∀ j, j < pyMaxRangeKey n key → key j < key (pyMaxRangeKey n key)) := by
  induction n with
  | zero =>
    refine ⟨fun h => absurd h (lt_irrefl 0), fun j hj => absurd hj (Nat.not_lt_zero j), ?_⟩
    intro j hj
    rw [pyMaxRangeKey_zero] at hj
    exact absurd hj (Nat.not_lt_zero j)
  | succ n ih =>
    obtain ⟨ih1, ih2, ih3⟩ := ih
    rw [pyMaxRangeKey_succ]
    by_cases h : key (pyMaxRangeKey n key) < key n
    · rw [if_pos h]
      refine ⟨fun _ => Nat.lt_succ_self n, ?_, ?_⟩
      · intro j hj
        rcases Nat.lt_succ_iff_lt_or_eq.mp hj with hj' | rfl
        · exact le_of_lt (lt_of_le_of_lt (ih2 j hj') h)
        · exact le_refl _
      · intro j hj
        exact lt_of_le_of_lt (ih2 j hj) h
    · rw [if_neg h]
      refine ⟨fun _ => ?_, ?_, ih3⟩
      · rcases Nat.eq_zero_or_pos n with rfl | hn
        · rw [pyMaxRangeKey_zero]
          exact Nat.one_pos
        · exact Nat.lt_succ_of_lt (ih1 hn)
      · intro j hj
        rcases Nat.lt_succ_iff_lt_or_eq.mp hj with hj' | rfl
        · exact ih2 j hj'
        · exact le_of_not_lt h

theorem pyMaxRangeKey_one {β : Type} [LinearOrder β] (key : ℕ → β) :
    pyMaxRangeKey 1 key = 0 := by
  rw [pyMaxRangeKey_succ, pyMaxRangeKey_zero, ite_self]

theorem dictKeys_dictInsert (d : List (ℕ × DescaleAttempt)) (k : ℕ) (v : DescaleAttempt) :
    dictKeys (dictInsert d k v) =
      if k ∈ dictKeys d then dictKeys d else dictKeys d ++ [k] := by
  by_cases h : k ∈ dictKeys d
  · have hany : d.any (fun p => p.1 = k) = true := by
      rw [List.any_eq_true]
      obtain ⟨p, hp, hpk⟩ := List.mem_map.mp h
      exact ⟨p, hp, by simp [hpk]⟩
    rw [dictInsert, if_pos hany, if_pos h, dictKeys, dictKeys, List.map_map]
    apply List.map_congr_left
    intro p _
    by_cases hp : p.1 = k
    · simp [hp]
    · simp [hp]
  · have hany : d.any (fun p => p.1 = k) = false := by
      rw [List.any_eq_false]
      intro p hp
      simp only [decide_eq_true_eq]
      intro hpk
      exact h (List.mem_map.mpr ⟨p, hp, hpk⟩)
    rw [dictInsert, hany, if_neg h]
    simp [dictKeys]

theorem foldl_dictInsert_keys (l : List DescaleAttempt) :
    ∀ d : List (ℕ × DescaleAttempt), (dictKeys d).Nodup →
      (dictKeys (l.foldl (fun acc a => dictInsert acc a.height a) d)).Nodup ∧
      (dictKeys (l.foldl (fun acc a => dictInsert acc a.height a) d)).toFinset =
        (dictKeys d).toFinset ∪ (l.map DescaleAttempt.height).toFinset := by
  induction l with
  | nil => intro d hd; simpa using hd
  | cons a l ih =>
    intro d hd
    have hstep : ((a :: l).foldl (fun acc a => dictInsert acc a.height a) d) =
        l.foldl (fun acc a => dictInsert acc a.height a) (dictInsert d a.height a) := rfl
    rw [hstep]
    have hkeys := dictKeys_dictInsert d a.height a
    by_cases hmem : a.height ∈ dictKeys d
    · rw [if_pos hmem] at hkeys
      have hnd : (dictKeys (dictInsert d a.height a)).Nodup := by rw [hkeys]; exact hd
      obtain ⟨h1, h2⟩ := ih (dictInsert d a.height a) hnd
      refine ⟨h1, ?_⟩
      rw [h2, hkeys]
      have hmem' : a.height ∈ (dictKeys d).toFinset ∪
          (l.map DescaleAttempt.height).toFinset :=
        Finset.mem_union_left _ (List.mem_toFinset.mpr hmem)
      rw [List.map_cons, List.toFinset_cons, Finset.union_insert,
        Finset.insert_eq_self.mpr hmem']
    · rw [if_neg hmem] at hkeys
      have hnd : (dictKeys (dictInsert d a.height a)).Nodup := by
        rw [hkeys, List.nodup_append]
        refine ⟨hd, List.nodup_singleton _, ?_⟩
        intro x hx hx'
        rw [List.mem_singleton] at hx'
        exact hmem (hx' ▸ hx)
      obtain ⟨h1, h2⟩ := ih (dictInsert d a.height a) hnd
      refine ⟨h1, ?_⟩
      rw [h2, hkeys]
      ext x
      simp only [List.toFinset_append, Finset.mem_union, List.mem_toFinset, List.map_cons,
        List.toFinset_cons, Finset.mem_insert, List.mem_singleton]
      tauto

theorem foldl_max_replicate (n : ℕ) (a : ℚ) :
    (List.replicate n a).foldl max a = a := by
  induction n with
  | zero => rfl
  | succ n ih =>
    rw [List.replicate_succ, List.foldl_cons, max_self]
    exact ih

theorem listFoldMax_replicate (n : ℕ) (a : ℚ) (hn : n ≠ 0) :
    listFoldMax (List.replicate n a) = a := by
  obtain ⟨m, rfl⟩ := Nat.exists_eq_succ_of_ne_zero hn
  rw [listFoldMax, List.replicate_succ, List.headD_cons, List.foldl_cons, max_self]
  exact foldl_max_replicate m a

theorem shiftOffsets_length (tr : ℕ) : (shiftOffsets tr).length = 2 * tr + 1 := by
  rw [shiftOffsets, List.length_map, List.length_range]

theorem temporalStabilize_static (t : ℕ) (m : MaskSeq)
    (hstat : ∀ i j : ℤ, m i = m j)
    (hbin : ∀ (i : ℤ) (p : ℤ × ℤ), m i p = 0 ∨ m i p = peakValue) :
    temporalStabilize t m = m := by
  have hlen : ((shiftOffsets t).length : ℚ) ≠ 0 := by
    rw [shiftOffsets_length]
    positivity
  have havg : ∀ (j : ℤ) (p : ℤ × ℤ), tsAvg t m j p = m j p := by
    intro j p
    rw [tsAvg]
    have hmap : (shiftOffsets t).map (fun o => m (j + o) p) =
        (shiftOffsets t).map (fun _ => m j p) :=
      List.map_congr_left (fun o _ => by rw [hstat (j + o) j])
    rw [hmap, List.map_const', List.sum_replicate, nsmul_eq_mul]
    exact mul_div_cancel_left₀ _ hlen
  have havgBin : ∀ (j : ℤ) (p : ℤ × ℤ), tsAvgBin t m j p = m j p := by
    intro j p
    rw [tsAvgBin, havg]
    rcases hbin j p with h | h
    · rw [h, if_neg]
      rw [neutralValue]
      norm_num
    · rw [h, if_pos]
      rw [neutralValue, peakValue]
      norm_num
  have hmin : ∀ (j : ℤ) (p : ℤ × ℤ), tsMin t m j p = m j p := by
    intro j p
    rw [tsMin, havgBin, min_self]
  funext i p
  rw [temporalStabilize, tsShiftMax]
  have hmap : (shiftOffsets t).map (fun o => tsMin t m (i + o) p) =
      (shiftOffsets t).map (fun _ => m i p) :=
    List.map_congr_left (fun o _ => by rw [hmin, hstat (i + o) i])
  rw [hmap, List.map_const', listFoldMax_replicate _ _ (by rw [shiftOffsets_length]; omega),
    min_self]

/-! ### Claim theorems -/

/-- Claim C1 (code bug evaluation): with two kernels and two parallel
(width, height) pairs the generator emits only two candidates — one per
kernel, `zip` truncating the repeated pair list — not the
`len(kernels) * len(heights) = 4` of the claimed full cross product. -/
theorem c1_no_cross_product :
    kernelCombinations [kCatrom, kBilinear] [1280, 1440] [720, 810] =
      [(kCatrom, (1280, 720)), (kBilinear, (1440, 810))] ∧
    (kernelCombinations [kCatrom, kBilinear] [1280, 1440] [720, 810]).length = 2 ∧
    (kernelCombinations [kCatrom, kBilinear] [1280, 1440] [720, 810]).length ≠
      [kCatrom, kBilinear].length * [720, 810].length := by
  refine ⟨rfl, rfl, ?_⟩
  decide

/-- Claim C3 counterexample: two candidates sharing the 720 height
collapse into a single `clips_by_height` entry, so the selection record
does not have one entry per candidate. -/
theorem c3_counterexample :
    (clipsByHeight [att720a, att720b]).length = 1 ∧
    [att720a, att720b].length = 2 := ⟨rfl, rfl⟩

/-- Claim C3 (amended): the per-frame selection record has exactly one
entry per **distinct** candidate height; it has one entry per candidate
exactly when the candidate heights are pairwise distinct. -/
theorem c3_one_entry_per_distinct_height (attempts : List DescaleAttempt) :
    (clipsByHeight attempts).length =
      (attempts.map DescaleAttempt.height).toFinset.card ∧
    ((attempts.map DescaleAttempt.height).Nodup →
      (clipsByHeight attempts).length = attempts.length) := by
  obtain ⟨hnd, hfin⟩ := foldl_dictInsert_keys attempts [] (by simp [dictKeys])
  have hlen : (clipsByHeight attempts).length = (dictKeys (clipsByHeight attempts)).length := by
    rw [dictKeys, List.length_map]
  have hkey : dictKeys (clipsByHeight attempts) =
      dictKeys (attempts.foldl (fun acc a => dictInsert acc a.height a) []) := rfl
  have hcard : (clipsByHeight attempts).length =
      (attempts.map DescaleAttempt.height).toFinset.card := by
    rw [hlen, hkey, ← List.toFinset_card_of_nodup hnd, hfin]
    simp [dictKeys]
  refine ⟨hcard, fun h => ?_⟩
  rw [hcard, List.toFinset_card_of_nodup h, List.length_map]

/-- Claim C3 witness: with distinct heights 720 and 810 the record keeps
one entry per candidate. -/
theorem c3_witness :
    ([att720a, att810].map DescaleAttempt.height).Nodup ∧
    (clipsByHeight [att720a, att810]).length = [att720a, att810].length :=
  ⟨by decide, (c3_one_entry_per_distinct_height [att720a, att810]).2 (by decide)⟩

/-- Claim C4 counterexample: two kernels with a single (width, height)
pair produce two candidates, yet `multi_descale = len(widths) > 1` is
false and the single-candidate passthrough is used. -/
theorem c4_counterexample :
    (kernelCombinations [kCatrom, kBilinear] [1280] [720]).length = 2 ∧
    descalePath [1280] = .passthrough := ⟨rfl, rfl⟩

/-- Claim C4 (amended): the dispatch between passthrough and per-frame
selection depends only on the number of (width, height) pairs — selection
is used iff more than one width is configured, regardless of how many
candidates the kernels produce. -/
theorem c4_dispatch_by_width_count (widths : List ℕ) :
    (descalePath widths = .perFrameSelection ↔ 1 < widths.length) ∧
    (descalePath widths = .passthrough ↔ widths.length ≤ 1) := by
  by_cases h : 1 < widths.length
  · have hm : multiDescale widths = true := by
      simp [multiDescale, h]
    constructor
    · rw [descalePath, if_pos hm]
      simp [h]
    · rw [descalePath, if_pos hm]
      constructor
      · intro hc
        exact absurd hc (by simp)
      · omega
  · have hm : multiDescale widths = false := by
      simp [multiDescale, h]
    constructor
    · rw [descalePath, if_neg (by simp [hm])]
      constructor
      · intro hc
        exact absurd hc (by simp)
      · intro hc
        omega
    · rw [descalePath, if_neg (by simp [hm])]
      simp
      omega

/-- Claim C8 (code bug evaluation): the `and` in the format guard lets a
16-bit **float** clip through both `gamma2linear` and `linear2gamma`
although it is not 32-bit float (the raised message's own words), while
integer clips of other depths are still rejected. -/
theorem c8_gamma_checks_accept_half_float :
    gamma2linear_check ⟨16, .float⟩ = .ok () ∧
    linear2gamma_check ⟨16, .float⟩ = .ok () ∧
    (16 : ℕ) ≠ 32 ∧
    gamma2linear_check ⟨8, .integer⟩ =
      .error "gamma2linear: Your clip must be 32bit float!" :=
  ⟨rfl, rfl, by decide, rfl⟩

/-- Claim C2: the candidate score is exactly
`log2(sourceHeight - descaleHeight) * round(1 / max(stat, 1e-12)) ** 0.2`;
the winner index used by the selector is Python's `max(range(n), key)`,
which attains the maximal key and beats every earlier index strictly
(first maximal index wins exact ties); and the spec's sample —
source height 1080, descale height 720, statistic 0.01 — scores
`log2(360) * round(100) ** 0.2 ≈ 21.3` (within `(21.2, 21.5)`). -/
theorem c2_score_formula_winner_and_sample :
    (∀ (ch dh : ℕ) (s : ℚ),
      descaleScore ch dh s =
        Real.logb 2 ((ch : ℝ) - (dh : ℝ)) *
          ((round ((1 : ℝ) / max (s : ℝ) 1e-12) : ℤ) : ℝ) ^ (0.2 : ℝ)) ∧
    (∀ (clipHeight : ℕ) (byHeight : List (ℕ × DescaleAttempt)) (props : List (ℕ × ℚ)),
      bestIdx clipHeight byHeight props =
        pyMaxRangeKey byHeight.length
          (fun i => descaleScore clipHeight (props.getD i (0, 0)).1 (props.getD i (0, 0)).2)) ∧
    (∀ (key : ℕ → ℝ) (n j : ℕ), j < n →
      key j ≤ key (pyMaxRangeKey n key) ∧
      (j < pyMaxRangeKey n key → key j < key (pyMaxRangeKey n key))) ∧
    (21.2 < descaleScore 1080 720 (1 / 100) ∧ descaleScore 1080 720 (1 / 100) < 21.5) := by
  refine ⟨fun ch dh s => rfl, fun clipHeight byHeight props => rfl, ?_, ?_⟩
  · intro key n j hj
    obtain ⟨-, h2, h3⟩ := pyMaxRangeKey_spec n key
    exact ⟨h2 j hj, h3 j⟩
  · have hscore : descaleScore 1080 720 (1 / 100) =
        Real.logb 2 360 * ((100 : ℝ)) ^ (0.2 : ℝ) := by
      rw [descaleScore]
      have h1 : ((1080 : ℕ) : ℝ) - ((720 : ℕ) : ℝ) = 360 := by norm_num
      have h2 : max (((1 : ℚ) / 100 : ℚ) : ℝ) 1e-12 = 1 / 100 := by
        rw [max_eq_left] <;> norm_num
      have h3 : (1 : ℝ) / (1 / 100) = 100 := by norm_num
      rw [h1, h2, h3, show (100 : ℝ) = ((100 : ℕ) : ℝ) by norm_num, round_natCast]
      norm_num
    have hLgt : (849 / 100 : ℝ) < Real.logb 2 360 := by
      rw [Real.lt_logb_iff_rpow_lt (by norm_num) (by norm_num : (0 : ℝ) < 360)]
      have key : ((2 : ℝ) ^ ((849 : ℝ) / 100)) ^ (100 : ℕ) < ((360 : ℝ)) ^ (100 : ℕ) := by
        rw [← Real.rpow_natCast ((2 : ℝ) ^ ((849 : ℝ) / 100)) 100,
          ← Real.rpow_mul (by norm_num : (0 : ℝ) ≤ 2),
          show (849 : ℝ) / 100 * (100 : ℕ) = ((849 : ℕ) : ℝ) by norm_num,
          Real.rpow_natCast]
        norm_num
      exact (pow_lt_pow_iff_left₀ (Real.rpow_nonneg (by norm_num) _)
        (by norm_num) (by norm_num)).mp key
    have hLlt : Real.logb 2 360 < 17 / 2 := by
      rw [Real.logb_lt_iff_lt_rpow (by norm_num) (by norm_num : (0 : ℝ) < 360)]
      have key : ((360 : ℝ)) ^ (2 : ℕ) < ((2 : ℝ) ^ ((17 : ℝ) / 2)) ^ (2 : ℕ) := by
        rw [← Real.rpow_natCast ((2 : ℝ) ^ ((17 : ℝ) / 2)) 2,
          ← Real.rpow_mul (by norm_num : (0 : ℝ) ≤ 2),
          show (17 : ℝ) / 2 * (2 : ℕ) = ((17 : ℕ) : ℝ) by norm_num,
          Real.rpow_natCast]
        norm_num
      exact (pow_lt_pow_iff_left₀ (by norm_num)
        (Real.rpow_nonneg (by norm_num) _) (by norm_num)).mp key
    have hR5 : ((100 : ℝ) ^ (0.2 : ℝ)) ^ (5 : ℕ) = 100 := by
      rw [← Real.rpow_natCast ((100 : ℝ) ^ (0.2 : ℝ)) 5,
        ← Real.rpow_mul (by norm_num : (0 : ℝ) ≤ 100)]
      norm_num
    have hRgt : (251 / 100 : ℝ) < (100 : ℝ) ^ (0.2 : ℝ) := by
      refine (pow_lt_pow_iff_left₀ (by norm_num)
        (Real.rpow_nonneg (by norm_num) _) (show (5 : ℕ) ≠ 0 by norm_num)).mp ?_
      rw [hR5]
      norm_num
    have hRlt : (100 : ℝ) ^ (0.2 : ℝ) < 63 / 25 := by
      refine (pow_lt_pow_iff_left₀ (Real.rpow_nonneg (by norm_num) _)
        (by norm_num) (show (5 : ℕ) ≠ 0 by norm_num)).mp ?_
      rw [hR5]
      norm_num
    rw [hscore]
    constructor
    · nlinarith [hLgt, hRgt, hLlt, hRlt]
    · nlinarith [hLgt, hRgt, hLlt, hRlt]

/-- Claim C2 witness: the first-maximal-index part applied at a concrete
key and indices. -/
theorem c2_witness :
    (1 : ℕ) < 2 ∧
    ((fun _ => (0 : ℝ)) 1 ≤ (fun _ => (0 : ℝ)) (pyMaxRangeKey 2 (fun _ => (0 : ℝ))) ∧
      (1 < pyMaxRangeKey 2 (fun _ => (0 : ℝ)) →
        (fun _ => (0 : ℝ)) 1 < (fun _ => (0 : ℝ)) (pyMaxRangeKey 2 (fun _ => (0 : ℝ))))) :=
  ⟨by decide, c2_score_formula_winner_and_sample.2.2.1 (fun _ => (0 : ℝ)) 2 1 (by decide)⟩

/-- Claim C5: whenever the dict lookup of the winner succeeds, the
selector emits the original source clip exactly when a nonzero rejection
threshold is configured and the winner's statistic strictly exceeds it,
and the winner's descaled frame otherwise (including the
`threshold == 0` closure). -/
theorem c5_threshold_rejection (clip : Frame) (clipHeight : ℕ)
    (byHeight : List (ℕ × DescaleAttempt)) (threshold : ℚ)
    (props : List (ℕ × ℚ)) (att : DescaleAttempt)
    (hlk : lookupHeight byHeight
        (props.getD (bestIdx clipHeight byHeight props) (0, 0)).1 = some att) :
    selectDescale clip clipHeight byHeight threshold props =
      if threshold ≠ 0 ∧
          threshold < (props.getD (bestIdx clipHeight byHeight props) (0, 0)).2 then
        some clip
      else some att.descaled := by
  rw [selectDescale]
  simp only [hlk]
  by_cases h0 : threshold = 0
  · rw [if_pos h0, if_neg (fun hc => hc.1 h0)]
  · rw [if_neg h0]
    by_cases hgt : threshold < (props.getD (bestIdx clipHeight byHeight props) (0, 0)).2
    · rw [if_pos hgt, if_pos ⟨h0, hgt⟩]
    · rw [if_neg hgt, if_neg (fun hc => hgt hc.2)]

/-- Claim C5 witness: a single 720p candidate whose statistic 5 exceeds
the threshold 1, so the source clip 99 is emitted. -/
theorem c5_witness :
    lookupHeight (clipsByHeight [att720a])
      (([((720 : ℕ), (5 : ℚ))]).getD
        (bestIdx 1080 (clipsByHeight [att720a]) [(720, 5)]) (0, 0)).1 = some att720a ∧
    selectDescale 99 1080 (clipsByHeight [att720a]) 1 [(720, 5)] = some 99 := by
  have hb : bestIdx 1080 (clipsByHeight [att720a]) [((720 : ℕ), (5 : ℚ))] = 0 :=
    pyMaxRangeKey_one _
  have hlk : lookupHeight (clipsByHeight [att720a])
      (([((720 : ℕ), (5 : ℚ))]).getD
        (bestIdx 1080 (clipsByHeight [att720a]) [(720, 5)]) (0, 0)).1 = some att720a := by
    rw [hb]
    rfl
  refine ⟨hlk, ?_⟩
  rw [c5_threshold_rejection 99 1080 (clipsByHeight [att720a]) 1 [(720, 5)] att720a hlk,
    hb, if_pos ⟨by norm_num, by norm_num⟩]

/-- Claim C6 (code bug evaluation): a negative pre-inflate count selects
`std.Minimum` but hands the negative count to `iterate`, which then runs
zero iterations — the pipeline output equals the not-eroded one (first
conjunct), and concretely an isolated lit pixel that a single erosion
would clear (third conjunct) survives with value 1 (second conjunct). -/
theorem c6_negative_xxpand_never_erodes :
    (∀ (clip rescaled : Plane) (thr : ℚ) (inflate : ℤ) (x1 x2 : ℤ), x1 < 0 →
      descale_detail_mask clip rescaled thr inflate (x1, x2) =
        descale_detail_mask clip rescaled thr inflate (0, x2)) ∧
    descale_detail_mask demoClip demoZero (1 / 20) 0 (-1, 0) (0, 0) = 1 ∧
    minimumOp (binarize ((1 / 20) * peakValue) (absDiff demoClip demoZero)) (0, 0) = 0 := by
  refine ⟨?_, ?_, ?_⟩
  · intro clip rescaled thr inflate x1 x2 h
    have h0 : x1.toNat = 0 := Int.toNat_of_nonpos (le_of_lt h)
    simp only [descale_detail_mask, vstoolsIterate, h0, ne_eq, Function.iterate_zero, id_eq]
    rw [if_pos (ne_of_lt h)]
    simp
  · norm_num [descale_detail_mask, vstoolsIterate, binarize, absDiff, limiter,
      demoClip, demoZero, peakValue, show ((-1 : ℤ)).toNat = 0 from rfl,
      Function.iterate_zero, id_eq]
  · norm_num [minimumOp, binarize, absDiff, demoClip, demoZero, peakValue, nbhd9,
      listFoldMax, Prod.ext_iff]

/-- Claim C6 witness: `xxpand = (-4, 0)` behaves exactly like
`xxpand = (0, 0)` — no erosion takes place. -/
theorem c6_witness :
    (-4 : ℤ) < 0 ∧
    descale_detail_mask demoClip demoZero (1 / 20) 2 (-4, 0) =
      descale_detail_mask demoClip demoZero (1 / 20) 2 (0, 0) :=
  ⟨by decide,
    c6_negative_xxpand_never_erodes.1 demoClip demoZero (1 / 20) 2 (-4) 0 (by decide)⟩

/-- Claim C7: the second elliptical expansion of the error mask runs iff
the third expand count `exp3` is nonzero, but with the second count
`exp2` as its iteration count: with `exp2 = 2, exp3 = 3` and an
expansion capability that adds one per iteration, the seed pixel gains
exactly 2, not 3; with `exp3 = 0` the step is skipped entirely. -/
theorem c7_second_ellipse_gated_by_exp3_counts_exp2 :
    (∀ (ee : ℕ → MaskSeq → MaskSeq) (exp2 exp3 : ℤ) (m : MaskSeq),
      secondEllipseStep ee exp2 exp3 m =
        if exp3 ≠ 0 then ee exp2.toNat m else m) ∧
    secondEllipseStep iterCountOps 2 3 demoSeq 0 (0, 0) = 1 + 2 ∧
    (1 + 2 : ℚ) ≠ 1 + 3 ∧
    secondEllipseStep iterCountOps 2 0 demoSeq = demoSeq := by
  refine ⟨fun ee exp2 exp3 m => rfl, ?_, by norm_num, ?_⟩
  · rw [secondEllipseStep, if_pos (by norm_num)]
    show addOneOp (addOneOp (iterCountOps 0 demoSeq)) 0 (0, 0) = 1 + 2
    norm_num [addOneOp, iterCountOps, demoSeq, demoClip]
  · rw [secondEllipseStep, if_neg (by norm_num)]

/-- Claim C9: the temporal stabilization step of the error mask leaves a
perfectly static binarized mask sequence unchanged for every `tr ≥ 1`,
and at every frame the stabilized mask is per-pixel at most the base
mask. -/
theorem c9_temporal_stabilization_static_and_bounded :
    (∀ (tr : ℤ) (m : MaskSeq), 1 ≤ tr →
      (∀ i j : ℤ, m i = m j) →
      (∀ (i : ℤ) (p : ℤ × ℤ), m i p = 0 ∨ m i p = peakValue) →
      errorMaskTemporal tr m = m) ∧
    (∀ (tr : ℤ) (m : MaskSeq) (i : ℤ) (p : ℤ × ℤ),
      errorMaskTemporal tr m i p ≤ m i p) := by
  constructor
  · intro tr m _ hstat hbin
    rw [errorMaskTemporal]
    by_cases h : 1 < tr
    · rw [if_pos h]
      exact temporalStabilize_static tr.toNat m hstat hbin
    · rw [if_neg h]
  · intro tr m i p
    rw [errorMaskTemporal]
    by_cases h : 1 < tr
    · rw [if_pos h, temporalStabilize]
      exact min_le_left _ _
    · rw [if_neg h]

/-- Claim C9 witness: the all-peak static sequence is a fixed point of
the temporal step at `tr = 2`. -/
theorem c9_witness :
    (1 : ℤ) ≤ 2 ∧
    errorMaskTemporal 2 (fun _ _ => peakValue) = (fun _ _ => peakValue) :=
  ⟨by decide,
    c9_temporal_stabilization_static_and_bounded.1 2 (fun _ _ => peakValue)
      (by decide) (fun _ _ => rfl) (fun _ _ => Or.inr rfl)⟩

/-- Claim C10: `descale_error_mask` fails with the `assert exp1`
assertion error exactly when the first (rectangular) expand count is
zero; with a nonzero first expand count and a nonempty threshold list it
always succeeds — the threshold values themselves (in particular a zero
first threshold) are never validated. -/
theorem c10_error_mask_exp1_assert_thr_unvalidated
    (ops : ExternOps) (y : MaskSeq) (chroma : List MaskSeq) (rescaled : MaskSeq)
    (thr : List ℚ) (expands : ExpandsArg) (blur : BlurArg) (bwbias tr : ℤ) :
    (expands.norm.1 = 0 →
      descale_error_mask ops y chroma rescaled thr expands blur bwbias tr =
        .error "AssertionError: assert exp1") ∧
    (expands.norm.1 ≠ 0 → thr ≠ [] →
      ∃ msk, descale_error_mask ops y chroma rescaled thr expands blur bwbias tr =
        .ok msk) := by
  constructor
  · intro h
    simp only [descale_error_mask]
    rw [if_pos h]
  · intro h hthr
    obtain ⟨t0, rest, rfl⟩ := List.exists_cons_of_ne_nil hthr
    simp only [descale_error_mask]
    rw [if_neg h]
    exact ⟨_, rfl⟩

/-- Claim C10 witness: with trivial external capabilities, `expands = 0`
raises the assertion while `expands = (2, 2, 3)` with the unvalidated
threshold list `[0]` succeeds. -/
theorem c10_witness :
    ((ExpandsArg.int 0).norm.1 = 0 ∧
      descale_error_mask trivOps zeroSeq [] zeroSeq [0] (.int 0) (.int 3) 1 1 =
        .error "AssertionError: assert exp1") ∧
    ((ExpandsArg.triple 2 2 3).norm.1 ≠ 0 ∧ ([0] : List ℚ) ≠ [] ∧
      ∃ msk, descale_error_mask trivOps zeroSeq [] zeroSeq [0] (.triple 2 2 3) (.int 3) 1 1 =
        .ok msk) :=
  ⟨⟨rfl,
    (c10_error_mask_exp1_assert_thr_unvalidated trivOps zeroSeq [] zeroSeq [0]
      (.int 0) (.int 3) 1 1).1 rfl⟩,
   ⟨by norm_num [ExpandsArg.norm], List.cons_ne_nil 0 [],
    (c10_error_mask_exp1_assert_thr_unvalidated trivOps zeroSeq [] zeroSeq [0]
      (.triple 2 2 3) (.int 3) 1 1).2 (by norm_num [ExpandsArg.norm])
      (List.cons_ne_nil 0 [])⟩⟩

end VsScale
